import Mathlib

set_option linter.unusedVariables false

/-!
Shallow embedding of the sweep-and-select core of the routing taper design
recipe (`gplugins/lumerical/recipes/taper_design_recipe.py`) and of the dopant
validation in the Layer Builder process-file generator
(`gplugins/lumerical/utils.py`).

Numeric values (lengths in meters, scattering coefficients in dB) are embedded
as rationals: the Python code only compares, divides by the constant unit
scales, and takes minima, all of which are exact.  The `10*log10(|s|**2)`
conversion happens before the embedded contract (the samples carry the already
converted dB values, as the spec's threshold-search contract states).

Fallible Python operations (`min` of an empty sequence, `list.index`,
subscripts) are embedded as `Except PyErr` computations so that the error KIND
of each failure path is visible.
-/

/-- Python exception kinds that the embedded code paths can raise.
`indexError` and `keyError` derive from Python's `LookupError`;
`valueError` does not (it is raised by `min()` on an empty sequence and by
`list.index` on a missing element). -/
inductive PyErr where
  | valueError
  | indexError
  | keyError
  deriving DecidableEq, Repr

/-- Python's `LookupError` hierarchy: `IndexError` and `KeyError` are lookup
errors, `ValueError` is not. -/
def isLookupError : PyErr → Bool
  | PyErr.indexError => true
  | PyErr.keyError => true
  | PyErr.valueError => false

/-- `um = 1e-6`, the unit scale constant at the top of
`taper_design_recipe.py`. -/
def um : ℚ := 1 / 1000000

/-- `cm = 1e-2`, the unit scale constant at the top of
`taper_design_recipe.py`. -/
def cm : ℚ := 1 / 100

/-- One row of the length sweep table returned by
`LumericalEmeSimulation.get_length_sweep`: a length (meters) and the
transmission (`s21`) and reflection (`s11`) coefficients, already converted to
dB via `10*log10(abs(s)**2)` as in `eval` lines 319-320. -/
structure Sample where
  length : ℚ
  s21dB : ℚ
  s11dB : ℚ
  deriving DecidableEq, Repr

/-- The generator expression in `eval` line 322-326:
`next(k for k, value in enumerate(list(s21)) if value > -loss * length[k] / cm)`.
Returns the first index (with its sample) whose transmission exceeds the routing
loss bound, or `none` when the generator is exhausted (`StopIteration`). -/
def findCrossingSample (rate : ℚ) : List Sample → Option (ℕ × Sample)
  | [] => none
  | s :: rest =>
    if s.s21dB > -rate * s.length / cm then some (0, s)
    else (findCrossingSample rate rest).map (fun p => (p.1 + 1, p.2))

/-- The per-candidate triple appended by `eval` lines 327-329 / 335-337:
optimal length (in um, i.e. `length[ind] / um`), transmission and reflection
coefficients at that index. -/
structure CandidateResult where
  optimalLength : ℚ
  transmission : ℚ
  reflection : ℚ
  deriving DecidableEq, Repr

/-- The length-threshold search of `eval` lines 318-337 for one candidate:
on a crossing, record `(length[ind] / um, s21[ind], s11[ind])` with no warning;
on `StopIteration`, log one warning and record
`(di.stop_length, s21[-1], s11[-1])` (the configured maximum sweep length and
the last sample's coefficients).  The second component counts warnings logged.
An empty sweep table (so that `s21[-1]` has no element) is an error. -/
def processCandidate (rate stopLength : ℚ) (samples : List Sample) :
    Except PyErr (CandidateResult × ℕ) :=
  match findCrossingSample rate samples with
  | some ks => Except.ok (⟨ks.2.length / um, ks.2.s21dB, ks.2.s11dB⟩, 0)
  | none =>
    match samples.getLast? with
    | some last => Except.ok (⟨stopLength, last.s21dB, last.s11dB⟩, 1)
    | none => Except.error PyErr.keyError

/-- Python `min(xs)` on a list: raises `ValueError` on an empty sequence,
otherwise folds the binary minimum over the list. -/
def pyMin (xs : List ℚ) : Except PyErr ℚ :=
  match xs with
  | [] => Except.error PyErr.valueError
  | x :: rest => Except.ok (rest.foldl min x)

/-- Python `xs.index(v)`: the first index holding `v`, `ValueError` when `v`
is absent. -/
def pyIndex (v : ℚ) : List ℚ → Except PyErr ℕ
  | [] => Except.error PyErr.valueError
  | x :: rest =>
    if x = v then Except.ok 0 else (pyIndex v rest).map (fun i => i + 1)

/-- Python `xs[i]` for a non-negative index: `IndexError` out of range. -/
def pyGet {α : Type} (xs : List α) (i : ℕ) : Except PyErr α :=
  match xs[i]? with
  | some x => Except.ok x
  | none => Except.error PyErr.indexError

theorem foldl_min_le (xs : List ℚ) (x : ℚ) : ∀ y ∈ x :: xs, xs.foldl min x ≤ y := by
  induction xs generalizing x with
  | nil =>
    intro y hy
    simp only [List.mem_singleton] at hy
    simp [hy]
  | cons a l ih =>
    intro y hy
    simp only [List.foldl_cons]
    rcases List.mem_cons.mp hy with h | h
    · exact le_trans (ih (min x a) (min x a) (List.mem_cons_self _ _)) (by simp [h])
    · rcases List.mem_cons.mp h with h' | h'
      · exact le_trans (ih (min x a) (min x a) (List.mem_cons_self _ _)) (by simp [h'])
      · exact ih (min x a) y (List.mem_cons_of_mem _ h')

theorem foldl_min_mem (xs : List ℚ) (x : ℚ) : xs.foldl min x ∈ x :: xs := by
  induction xs generalizing x with
  | nil => simp
  | cons a l ih =>
    simp only [List.foldl_cons]
    rcases List.mem_cons.mp (ih (min x a)) with h | h
    · rw [h]
      rcases min_choice x a with h' | h' <;> rw [h'] <;> simp
    · exact List.mem_cons_of_mem _ (List.mem_cons_of_mem _ h)

theorem pyMin_ok (xs : List ℚ) (m : ℚ) (h : pyMin xs = Except.ok m) :
    m ∈ xs ∧ ∀ y ∈ xs, m ≤ y := by
  match xs with
  | [] => simp [pyMin] at h
  | x :: rest =>
    simp only [pyMin, Except.ok.injEq] at h
    subst h
    exact ⟨foldl_min_mem rest x, foldl_min_le rest x⟩

theorem pyIndex_ok (v : ℚ) (xs : List ℚ) (i : ℕ) (h : pyIndex v xs = Except.ok i) :
    xs[i]? = some v ∧ ∀ j, j < i → xs[j]? ≠ some v := by
  induction xs generalizing i with
  | nil => simp [pyIndex] at h
  | cons x rest ih =>
    by_cases hx : x = v
    · simp only [pyIndex, if_pos hx, Except.ok.injEq] at h
      subst h
      exact ⟨by simp [hx], fun j hj => absurd hj (Nat.not_lt_zero j)⟩
    · simp only [pyIndex, if_neg hx] at h
      match hrec : pyIndex v rest with
      | Except.error e => rw [hrec] at h; simp [Except.map] at h
      | Except.ok i' =>
        rw [hrec] at h
        simp only [Except.map, Except.ok.injEq] at h
        subst h
        obtain ⟨h1, h2⟩ := ih i' hrec
        refine ⟨by simpa using h1, ?_⟩
        intro j hj
        match j with
        | 0 => simpa using hx
        | j' + 1 =>
          have : j' < i' := by omega
          simpa using h2 j' this

theorem pyIndex_exists (v : ℚ) (xs : List ℚ) (h : v ∈ xs) :
    ∃ i, pyIndex v xs = Except.ok i := by
  induction xs with
  | nil => simp at h
  | cons x rest ih =>
    by_cases hx : x = v
    · exact ⟨0, by simp [pyIndex, hx]⟩
    · rcases List.mem_cons.mp h with h' | h'
      · exact absurd h'.symm hx
      · obtain ⟨i, hi⟩ := ih h'
        exact ⟨i + 1, by simp [pyIndex, hx, hi, Except.map]⟩

theorem pyGet_ok {α : Type} (xs : List α) (i : ℕ) (x : α) :
    pyGet xs i = Except.ok x ↔ xs[i]? = some x := by
  unfold pyGet
  match h : xs[i]? with
  | some y => simp
  | none => simp

theorem findCrossingSample_get (rate : ℚ) (samples : List Sample) (k : ℕ) (s : Sample)
    (h : findCrossingSample rate samples = some (k, s)) :
    samples[k]? = some s ∧ s.s21dB > -rate * s.length / cm := by
  induction samples generalizing k with
  | nil => simp [findCrossingSample] at h
  | cons a rest ih =>
    by_cases ha : a.s21dB > -rate * a.length / cm
    · simp only [findCrossingSample, if_pos ha, Option.some.injEq, Prod.mk.injEq] at h
      obtain ⟨hk, hs⟩ := h
      subst hk; subst hs
      exact ⟨by simp, ha⟩
    · simp only [findCrossingSample, if_neg ha] at h
      match hrec : findCrossingSample rate rest with
      | none => rw [hrec] at h; exact absurd h (by simp)
      | some p =>
        rw [hrec] at h
        have h' : (some (p.1 + 1, p.2) : Option (ℕ × Sample)) = some (k, s) := h
        simp only [Option.some.injEq, Prod.mk.injEq] at h'
        obtain ⟨hk, hs⟩ := h'
        obtain ⟨h1, h2⟩ := ih p.1 (by rw [hrec, ← hs])
        subst hk
        exact ⟨by simpa using h1, by rw [← hs] at h2 ⊢; exact h2⟩

theorem findCrossingSample_of_least (rate : ℚ) (samples : List Sample) (k : ℕ) (s : Sample)
    (hk : samples[k]? = some s)
    (hs : s.s21dB > -rate * s.length / cm)
    (hmin : ∀ j t, j < k → samples[j]? = some t → ¬(t.s21dB > -rate * t.length / cm)) :
    findCrossingSample rate samples = some (k, s) := by
  induction samples generalizing k with
  | nil => simp at hk
  | cons a rest ih =>
    by_cases ha : a.s21dB > -rate * a.length / cm
    · match k with
      | 0 =>
        simp only [List.getElem?_cons_zero, Option.some.injEq] at hk
        subst hk
        simp only [findCrossingSample]
        rw [if_pos ha]
      | k' + 1 =>
        exact absurd ha (hmin 0 a (Nat.succ_pos k') (by simp))
    · match k with
      | 0 =>
        simp only [List.getElem?_cons_zero, Option.some.injEq] at hk
        subst hk
        exact absurd hs ha
      | k' + 1 =>
        have hk' : rest[k']? = some s := by simpa using hk
        have hmin' : ∀ j t, j < k' → rest[j]? = some t →
            ¬(t.s21dB > -rate * t.length / cm) := by
          intro j t hj hget
          exact hmin (j + 1) t (by omega) (by simpa using hget)
        have hrest := ih k' hk' hmin'
        simp only [findCrossingSample]
        rw [if_neg ha, hrest]
        rfl

theorem findCrossingSample_none (rate : ℚ) (samples : List Sample)
    (h : ∀ s ∈ samples, ¬(s.s21dB > -rate * s.length / cm)) :
    findCrossingSample rate samples = none := by
  induction samples with
  | nil => simp [findCrossingSample]
  | cons a rest ih =>
    have ha := h a (List.mem_cons_self _ _)
    have hrest := ih (fun s hs => h s (List.mem_cons_of_mem _ hs))
    simp only [findCrossingSample]
    rw [if_neg ha, hrest]
    rfl

/-- Claim C1: over an ordered sample sequence with monotonically increasing
lengths, whenever index `k` is the smallest index whose transmission exceeds
`-target_rate * length[k] / length_scale`, the length-threshold search of
`eval` records exactly that sample's triple, with the length reported in sweep
units (`length[k] / um`), and logs no warning. -/
theorem length_threshold_search_first_crossing (rate stopLength : ℚ)
    (samples : List Sample)
    (hmono : List.Chain' (fun a b => a.length < b.length) samples)
    (k : ℕ) (s : Sample)
    (hk : samples[k]? = some s)
    (hs : s.s21dB > -rate * s.length / cm)
    (hmin : ∀ j t, j < k → samples[j]? = some t → ¬(t.s21dB > -rate * t.length / cm)) :
    processCandidate rate stopLength samples =
      Except.ok (⟨s.length / um, s.s21dB, s.s11dB⟩, 0) := by
  unfold processCandidate
  rw [findCrossingSample_of_least rate samples k s hk hs hmin]

/-- Witness for C1 at a concrete two-sample sweep. -/
theorem length_threshold_search_first_crossing_witness :
    processCandidate 3 200 [⟨5 / 1000000, 0, -80⟩, ⟨6 / 1000000, -1, -60⟩] =
      Except.ok (⟨5, 0, -80⟩, 0) := by
  have h := length_threshold_search_first_crossing 3 200
    [⟨5 / 1000000, 0, -80⟩, ⟨6 / 1000000, -1, -60⟩]
    (by simp [List.chain'_cons]; norm_num)
    0 ⟨5 / 1000000, 0, -80⟩ (by simp)
    (by show (0:ℚ) > -3 * (5 / 1000000) / cm; unfold cm; norm_num)
    (fun j t hj _ => absurd hj (Nat.not_lt_zero j))
  rw [h]
  have : (5 : ℚ) / 1000000 / um = 5 := by unfold um; norm_num
  rw [this]

/-- Claim C3: when no index of the sweep satisfies the threshold condition,
the length-threshold search records the configured maximum sweep length with
the last sample's transmission and reflection, logs exactly one warning, and
the outcome is an ordinary value (degraded, not fatal). -/
theorem length_threshold_search_fallback (rate stopLength : ℚ)
    (samples : List Sample) (last : Sample)
    (hlast : samples.getLast? = some last)
    (hnone : ∀ s ∈ samples, ¬(s.s21dB > -rate * s.length / cm)) :
    processCandidate rate stopLength samples =
      Except.ok (⟨stopLength, last.s21dB, last.s11dB⟩, 1) := by
  unfold processCandidate
  rw [findCrossingSample_none rate samples hnone, hlast]

/-- Witness for C3 at a concrete sweep that never crosses the threshold. -/
theorem length_threshold_search_fallback_witness :
    processCandidate 3 200 [⟨5 / 1000000, -1, -80⟩, ⟨6 / 1000000, -2, -60⟩] =
      Except.ok (⟨200, -2, -60⟩, 1) := by
  have h := length_threshold_search_fallback 3 200
    [⟨5 / 1000000, -1, -80⟩, ⟨6 / 1000000, -2, -60⟩] ⟨6 / 1000000, -2, -60⟩
    (by simp [List.getLast?])
    (by
      intro s hs
      rcases List.mem_cons.mp hs with h' | h'
      · subst h'; show ¬((-1:ℚ) > -3 * (5 / 1000000) / cm); unfold cm; norm_num
      · rcases List.mem_cons.mp h' with h'' | h''
        · subst h''; show ¬((-2:ℚ) > -3 * (6 / 1000000) / cm); unfold cm; norm_num
        · simp at h'')
  exact h

/-- The `RoutingTaperDesignIntent` pydantic model: target routing loss
(dB/cm), maximum acceptable reflection (dB), and the length sweep range
(um) with its point count.  Field defaults are the model's defaults. -/
structure RoutingTaperDesignIntent where
  narrow_waveguide_routing_loss_per_cm : ℚ := 3
  max_reflection : ℚ := -70
  start_length : ℚ := 1
  stop_length : ℚ := 200
  num_pts : ℕ := 200
  deriving DecidableEq, Repr

/-- The taper component produced by `self.cell(...)`: the geometry arguments
that `eval` varies are the categorical width type and the length (um); the
cross sections are fixed per recipe and elided. -/
structure Component where
  widthType : String
  length : ℚ
  deriving DecidableEq, Repr

/-- Observable outcome of `eval` lines 281-372: the per-candidate result
lists built by the sweep loop, the selection indices `ind1`/`ind2` and the
chosen index, the constructed optimal component, the winner's length sweep
table, and the number of errors / warnings logged. -/
structure EvalOutput where
  optimalLengths : List ℚ
  transmissionCoefficients : List ℚ
  reflectionCoefficients : List ℚ
  ind1 : ℕ
  ind2 : ℕ
  selectedIdx : ℕ
  component : Component
  lengthSweep : List Sample
  errorsLogged : ℕ
  warningsLogged : ℕ
  deriving DecidableEq, Repr

/-- The per-candidate sweep loop of `eval` lines 287-337.  Each entry of the
input list is the outcome of `LumericalEmeSimulation(...)` followed by
`get_length_sweep` for one candidate: `none` when the simulation constructor
raises (the `except` path: one error logged, `continue`), `some samples` with
the returned sweep table otherwise.  Produces the list of
(candidate result, sweep table) pairs for the successful candidates in order,
with the total number of errors and warnings logged. -/
def runCandidates (rate stopLength : ℚ) :
    List (Option (List Sample)) → Except PyErr (List (CandidateResult × List Sample) × ℕ × ℕ)
  | [] => Except.ok ([], 0, 0)
  | none :: rest =>
    match runCandidates rate stopLength rest with
    | Except.ok (rs, e, w) => Except.ok (rs, e + 1, w)
    | Except.error err => Except.error err
  | some samples :: rest =>
    match processCandidate rate stopLength samples with
    | Except.ok (res, w0) =>
      match runCandidates rate stopLength rest with
      | Except.ok (rs, e, w) => Except.ok ((res, samples) :: rs, e, w0 + w)
      | Except.error err => Except.error err
    | Except.error err => Except.error err

/-- `RoutingTaperDesignRecipe.eval` lines 265-372 as a function of the design
intent and the per-candidate simulation outcomes.  Each candidate is a pair of
its width type (the entry of `typing.get_args(WidthTypes)` it was built from)
and its simulation outcome.  After the sweep loop, `ind1/ind2` are computed by
`optimal_lengths.index(min(optimal_lengths))` and
`reflection_coefficients.index(min(reflection_coefficients))`; the branch
`if ind1 == ind2 or (reflection_coefficients[ind1] < di.max_reflection)`
selects `ind1`, else `ind2` (with Python's short-circuit `or`); the optimal
component is built with `length=optimal_lengths[ind]` and
`width_type=list(typing.get_args(WidthTypes))[ind]` — note that this last
subscript indexes the FULL width-type list with an index into the filtered
per-success lists, exactly as the source does. -/
def eval (di : RoutingTaperDesignIntent)
    (candidates : List (String × Option (List Sample))) : Except PyErr EvalOutput :=
  match runCandidates di.narrow_waveguide_routing_loss_per_cm di.stop_length
      (candidates.map Prod.snd) with
  | Except.error err => Except.error err
  | Except.ok (rs, errs, warns) =>
    let optimalLengths := rs.map (fun p => p.1.optimalLength)
    let transmissionCoefficients := rs.map (fun p => p.1.transmission)
    let reflectionCoefficients := rs.map (fun p => p.1.reflection)
    let lengthSweeps := rs.map (fun p => p.2)
    match pyMin optimalLengths with
    | Except.error err => Except.error err
    | Except.ok m1 =>
      match pyIndex m1 optimalLengths with
      | Except.error err => Except.error err
      | Except.ok ind1 =>
        match pyMin reflectionCoefficients with
        | Except.error err => Except.error err
        | Except.ok m2 =>
          match pyIndex m2 reflectionCoefficients with
          | Except.error err => Except.error err
          | Except.ok ind2 =>
            match (if ind1 = ind2 then Except.ok true
                   else
                     match pyGet reflectionCoefficients ind1 with
                     | Except.ok r1 => Except.ok (decide (r1 < di.max_reflection))
                     | Except.error err => Except.error err) with
            | Except.error err => Except.error err
            | Except.ok takeInd1 =>
              let sel := if takeInd1 then ind1 else ind2
              match pyGet optimalLengths sel with
              | Except.error err => Except.error err
              | Except.ok optLen =>
                match pyGet (candidates.map Prod.fst) sel with
                | Except.error err => Except.error err
                | Except.ok wt =>
                  match pyGet lengthSweeps sel with
                  | Except.error err => Except.error err
                  | Except.ok sweep =>
                    Except.ok ⟨optimalLengths, transmissionCoefficients,
                      reflectionCoefficients, ind1, ind2, sel, ⟨wt, optLen⟩, sweep,
                      errs, warns⟩

theorem runCandidates_ok (rate stopLength : ℚ) (sims : List (Option (List Sample)))
    (rs : List (CandidateResult × List Sample)) (errs warns : ℕ)
    (h : runCandidates rate stopLength sims = Except.ok (rs, errs, warns)) :
    rs.map (fun p => p.2) = sims.filterMap id
    ∧ ∀ pr ∈ rs, ∃ w0, processCandidate rate stopLength pr.2 = Except.ok (pr.1, w0) := by
  induction sims generalizing rs errs warns with
  | nil =>
    simp only [runCandidates, Except.ok.injEq, Prod.mk.injEq] at h
    obtain ⟨h1, h2, h3⟩ := h
    subst h1
    simp
  | cons o rest ih =>
    match o with
    | none =>
      simp only [runCandidates] at h
      match hrec : runCandidates rate stopLength rest with
      | Except.error e => rw [hrec] at h; exact Except.noConfusion h
      | Except.ok (rs', e', w') =>
        rw [hrec] at h
        simp only [Except.ok.injEq, Prod.mk.injEq] at h
        obtain ⟨h1, h2, h3⟩ := h
        subst h1
        obtain ⟨ih1, ih2⟩ := ih rs' e' w' hrec
        exact ⟨by simpa using ih1, ih2⟩
    | some samples =>
      simp only [runCandidates] at h
      match hpc : processCandidate rate stopLength samples with
      | Except.error e => rw [hpc] at h; exact Except.noConfusion h
      | Except.ok (res, w0) =>
        rw [hpc] at h
        match hrec : runCandidates rate stopLength rest with
        | Except.error e => rw [hrec] at h; exact Except.noConfusion h
        | Except.ok (rs', e', w') =>
          rw [hrec] at h
          simp only [Except.ok.injEq, Prod.mk.injEq] at h
          obtain ⟨h1, h2, h3⟩ := h
          subst h1
          obtain ⟨ih1, ih2⟩ := ih rs' e' w' hrec
          constructor
          · simpa using ih1
          · intro pr hpr
            rcases List.mem_cons.mp hpr with h' | h'
            · subst h'
              exact ⟨w0, hpc⟩
            · exact ih2 pr h'

theorem runCandidates_all_none (rate stopLength : ℚ) (sims : List (Option (List Sample)))
    (h : ∀ o ∈ sims, o = none) :
    runCandidates rate stopLength sims = Except.ok ([], sims.length, 0) := by
  induction sims with
  | nil => rfl
  | cons o rest ih =>
    have ho := h o (List.mem_cons_self _ _)
    subst ho
    have hrest := ih (fun o' ho' => h o' (List.mem_cons_of_mem _ ho'))
    simp only [runCandidates]
    rw [hrest]
    simp

theorem eval_ok_elim (di : RoutingTaperDesignIntent)
    (cands : List (String × Option (List Sample))) (out : EvalOutput)
    (h : eval di cands = Except.ok out) :
    ∃ rs m1 m2 takeInd1,
      runCandidates di.narrow_waveguide_routing_loss_per_cm di.stop_length
          (cands.map Prod.snd) = Except.ok (rs, out.errorsLogged, out.warningsLogged)
      ∧ out.optimalLengths = rs.map (fun p => p.1.optimalLength)
      ∧ out.transmissionCoefficients = rs.map (fun p => p.1.transmission)
      ∧ out.reflectionCoefficients = rs.map (fun p => p.1.reflection)
      ∧ pyMin out.optimalLengths = Except.ok m1
      ∧ pyIndex m1 out.optimalLengths = Except.ok out.ind1
      ∧ pyMin out.reflectionCoefficients = Except.ok m2
      ∧ pyIndex m2 out.reflectionCoefficients = Except.ok out.ind2
      ∧ ((out.ind1 = out.ind2 ∧ takeInd1 = true)
         ∨ (out.ind1 ≠ out.ind2
            ∧ ∃ r1, pyGet out.reflectionCoefficients out.ind1 = Except.ok r1
                ∧ takeInd1 = decide (r1 < di.max_reflection)))
      ∧ out.selectedIdx = (if takeInd1 then out.ind1 else out.ind2)
      ∧ pyGet out.optimalLengths out.selectedIdx = Except.ok out.component.length
      ∧ pyGet (cands.map Prod.fst) out.selectedIdx = Except.ok out.component.widthType
      ∧ pyGet (rs.map (fun p => p.2)) out.selectedIdx = Except.ok out.lengthSweep := by
  unfold eval at h
  match hrc : runCandidates di.narrow_waveguide_routing_loss_per_cm di.stop_length
      (cands.map Prod.snd) with
  | Except.error e => rw [hrc] at h; exact Except.noConfusion h
  | Except.ok (rs, errs, warns) =>
    rw [hrc] at h
    dsimp only [] at h
    match hm1 : pyMin (rs.map (fun p => p.1.optimalLength)) with
    | Except.error e => rw [hm1] at h; exact Except.noConfusion h
    | Except.ok m1 =>
      rw [hm1] at h
      dsimp only [] at h
      match hi1 : pyIndex m1 (rs.map (fun p => p.1.optimalLength)) with
      | Except.error e => rw [hi1] at h; exact Except.noConfusion h
      | Except.ok ind1 =>
        rw [hi1] at h
        dsimp only [] at h
        match hm2 : pyMin (rs.map (fun p => p.1.reflection)) with
        | Except.error e => rw [hm2] at h; exact Except.noConfusion h
        | Except.ok m2 =>
          rw [hm2] at h
          dsimp only [] at h
          match hi2 : pyIndex m2 (rs.map (fun p => p.1.reflection)) with
          | Except.error e => rw [hi2] at h; exact Except.noConfusion h
          | Except.ok ind2 =>
            rw [hi2] at h
            dsimp only [] at h
            match htake : (if ind1 = ind2 then Except.ok true
                else
                  match pyGet (rs.map (fun p => p.1.reflection)) ind1 with
                  | Except.ok r1 => Except.ok (decide (r1 < di.max_reflection))
                  | Except.error err => Except.error err) with
            | Except.error e => rw [htake] at h; exact Except.noConfusion h
            | Except.ok takeInd1 =>
              rw [htake] at h
              dsimp only [] at h
              match hg1 : pyGet (rs.map (fun p => p.1.optimalLength))
                  (if takeInd1 then ind1 else ind2) with
              | Except.error e => rw [hg1] at h; exact Except.noConfusion h
              | Except.ok optLen =>
                rw [hg1] at h
                dsimp only [] at h
                match hg2 : pyGet (cands.map Prod.fst)
                    (if takeInd1 then ind1 else ind2) with
                | Except.error e => rw [hg2] at h; exact Except.noConfusion h
                | Except.ok wt =>
                  rw [hg2] at h
                  dsimp only [] at h
                  match hg3 : pyGet (rs.map (fun p => p.2))
                      (if takeInd1 then ind1 else ind2) with
                  | Except.error e => rw [hg3] at h; exact Except.noConfusion h
                  | Except.ok sweep =>
                    rw [hg3] at h
                    dsimp only [] at h
                    injection h with h'
                    subst h'
                    refine ⟨rs, m1, m2, takeInd1, rfl, rfl, rfl, rfl, hm1, hi1,
                      hm2, hi2, ?_, rfl, hg1, hg2, hg3⟩
                    by_cases hind : ind1 = ind2
                    · rw [if_pos hind] at htake
                      injection htake with ht
                      exact Or.inl ⟨hind, ht.symm⟩
                    · rw [if_neg hind] at htake
                      match hr1 : pyGet (rs.map (fun p => p.1.reflection)) ind1 with
                      | Except.error e => rw [hr1] at htake; exact Except.noConfusion htake
                      | Except.ok r1 =>
                        rw [hr1] at htake
                        injection htake with ht
                        exact Or.inr ⟨hind, r1, hr1, ht.symm⟩

theorem rs_snd_eq_filterMap (rate stopLength : ℚ)
    (cands : List (String × Option (List Sample)))
    (rs : List (CandidateResult × List Sample)) (errs warns : ℕ)
    (h : runCandidates rate stopLength (cands.map Prod.snd) = Except.ok (rs, errs, warns)) :
    rs.map (fun p => p.2) = cands.filterMap Prod.snd := by
  have h1 := (runCandidates_ok rate stopLength (cands.map Prod.snd) rs errs warns h).1
  rw [h1, List.filterMap_map]
  rfl

/-- Claim C2: on every completed `eval`, `ind1` holds a globally smallest
optimal length and `ind2` a globally smallest reflection; the selected index
is `ind1` when `ind1 == ind2` or when the reflection at `ind1` is strictly
below `di.max_reflection`, and `ind2` otherwise; the selected candidate's
optimal length becomes the built component's length and its sweep table (the
selected entry of the per-success sweep tables, i.e. of
`cands.filterMap Prod.snd`) becomes the recipe's `length_sweep` result. -/
theorem eval_selection_rule (di : RoutingTaperDesignIntent)
    (cands : List (String × Option (List Sample))) (out : EvalOutput)
    (h : eval di cands = Except.ok out) :
    (∃ l1, out.optimalLengths[out.ind1]? = some l1 ∧ ∀ l ∈ out.optimalLengths, l1 ≤ l)
    ∧ (∃ r2, out.reflectionCoefficients[out.ind2]? = some r2
        ∧ ∀ r ∈ out.reflectionCoefficients, r2 ≤ r)
    ∧ (∀ r1, out.reflectionCoefficients[out.ind1]? = some r1 →
        out.selectedIdx =
          if out.ind1 = out.ind2 ∨ r1 < di.max_reflection then out.ind1 else out.ind2)
    ∧ out.optimalLengths[out.selectedIdx]? = some out.component.length
    ∧ (cands.filterMap Prod.snd)[out.selectedIdx]? = some out.lengthSweep := by
  obtain ⟨rs, m1, m2, takeInd1, hrc, hopt, htr, hrefl, hm1, hi1, hm2, hi2, htake,
    hsel, hg1, hg2, hg3⟩ := eval_ok_elim di cands out h
  have hmin1 := pyMin_ok _ _ hm1
  have hmin2 := pyMin_ok _ _ hm2
  have hidx1 := pyIndex_ok _ _ _ hi1
  have hidx2 := pyIndex_ok _ _ _ hi2
  refine ⟨⟨m1, hidx1.1, hmin1.2⟩, ⟨m2, hidx2.1, hmin2.2⟩, ?_, ?_, ?_⟩
  · intro r1 hr1
    rcases htake with ⟨hind, ht⟩ | ⟨hind, r1', hr1', ht⟩
    · subst ht
      rw [if_pos (Or.inl hind)] at *
      simpa using hsel
    · have : r1' = r1 := by
        have := (pyGet_ok out.reflectionCoefficients out.ind1 r1').mp hr1'
        rw [this] at hr1
        exact (Option.some.injEq _ _ ▸ hr1 : _)
      subst this
      subst ht
      by_cases hlt : r1' < di.max_reflection
      · rw [if_pos (Or.inr hlt)]
        simpa [hlt] using hsel
      · rw [if_neg (by
          intro hc
          rcases hc with hc | hc
          · exact hind hc
          · exact hlt hc)]
        simpa [hlt] using hsel
  · exact (pyGet_ok _ _ _).mp hg1
  · rw [← rs_snd_eq_filterMap di.narrow_waveguide_routing_loss_per_cm di.stop_length
      cands rs out.errorsLogged out.warningsLogged hrc]
    exact (pyGet_ok _ _ _).mp hg3

/-- Concrete scenario from the spec's testable properties: candidate A has
length 10 um with reflection -80 dB, candidate B length 5 um with
reflection -50 dB. -/
def sampleA : Sample := ⟨10 / 1000000, 0, -80⟩

/-- Candidate B's single sweep sample for the C2 scenario. -/
def sampleB : Sample := ⟨5 / 1000000, 0, -50⟩

/-- The two-candidate input of the C2 scenario. -/
def candsAB : List (String × Option (List Sample)) :=
  [("sine", some [sampleA]), ("linear", some [sampleB])]

/-- The `eval` output of the C2 scenario. -/
def outAB : EvalOutput :=
  ⟨[10, 5], [0, 0], [-80, -50], 1, 0, 0, ⟨"sine", 10⟩, [sampleA], 0, 0⟩

/-- Witness for C2: the spec's concrete scenario — candidate A
(length 10 um, reflection -80 dB) and candidate B (length 5 um, reflection
-50 dB) under threshold -70 dB; `ind1 = 1` (B), `ind2 = 0` (A), B's
reflection is not below -70, so A (index 0) is selected and its length and
sweep table become the result. -/
theorem eval_selection_rule_witness :
    outAB.optimalLengths[(0 : ℕ)]? = some (10 : ℚ)
    ∧ (candsAB.filterMap Prod.snd)[(0 : ℕ)]? = some [sampleA] := by
  have h := eval_selection_rule ⟨3, -70, 1, 200, 200⟩ candsAB outAB
    (by
      norm_num [candsAB, outAB, sampleA, sampleB, eval, runCandidates,
        processCandidate, findCrossingSample, pyMin, pyIndex, pyGet, um, cm,
        min_def, Except.map])
  have hsel : outAB.selectedIdx = 0 := rfl
  exact ⟨hsel ▸ h.2.2.2.1, hsel ▸ h.2.2.2.2⟩

/-- Claim C10: the implicit tie-breaking of `list.index(min(list))` — on every
completed `eval`, `ind1` is the smallest index attaining the minimum of the
optimal lengths and `ind2` the smallest index attaining the minimum of the
reflection coefficients, so among tied candidates the one evaluated earliest
in the width-type sweep order wins. -/
theorem eval_tie_break_smallest_index (di : RoutingTaperDesignIntent)
    (cands : List (String × Option (List Sample))) (out : EvalOutput)
    (h : eval di cands = Except.ok out) :
    (∀ j lj, out.optimalLengths[j]? = some lj →
      (∀ l ∈ out.optimalLengths, lj ≤ l) → out.ind1 ≤ j)
    ∧ (∀ j rj, out.reflectionCoefficients[j]? = some rj →
      (∀ r ∈ out.reflectionCoefficients, rj ≤ r) → out.ind2 ≤ j) := by
  obtain ⟨rs, m1, m2, takeInd1, hrc, hopt, htr, hrefl, hm1, hi1, hm2, hi2, htake,
    hsel, hg1, hg2, hg3⟩ := eval_ok_elim di cands out h
  have hmin1 := pyMin_ok _ _ hm1
  have hmin2 := pyMin_ok _ _ hm2
  have hidx1 := pyIndex_ok _ _ _ hi1
  have hidx2 := pyIndex_ok _ _ _ hi2
  constructor
  · intro j lj hj hminj
    by_contra hlt
    push_neg at hlt
    have hmem : lj ∈ out.optimalLengths := List.getElem?_mem hj
    have heq : lj = m1 :=
      le_antisymm (hminj m1 (List.getElem?_mem hidx1.1)) (hmin1.2 lj hmem)
    exact hidx1.2 j hlt (heq ▸ hj)
  · intro j rj hj hminj
    by_contra hlt
    push_neg at hlt
    have hmem : rj ∈ out.reflectionCoefficients := List.getElem?_mem hj
    have heq : rj = m2 :=
      le_antisymm (hminj m2 (List.getElem?_mem hidx2.1)) (hmin2.2 rj hmem)
    exact hidx2.2 j hlt (heq ▸ hj)

/-- Witness for C10: two candidates tied on both optimal length and
reflection; the first index (0) wins both argmins, so `ind1 ≤ 1`. -/
theorem eval_tie_break_smallest_index_witness :
    (⟨[5, 5], [0, 0], [-80, -80], 0, 0, 0, ⟨"sine", 5⟩,
        [⟨5 / 1000000, 0, -80⟩], 0, 0⟩ : EvalOutput).ind1 ≤ 1 := by
  have h := eval_tie_break_smallest_index ⟨3, -70, 1, 200, 200⟩
    [("sine", some [⟨5 / 1000000, 0, -80⟩]), ("linear", some [⟨5 / 1000000, 0, -80⟩])]
    ⟨[5, 5], [0, 0], [-80, -80], 0, 0, 0, ⟨"sine", 5⟩, [⟨5 / 1000000, 0, -80⟩], 0, 0⟩
    (by
      norm_num [eval, runCandidates, processCandidate, findCrossingSample, pyMin,
        pyIndex, pyGet, um, cm, min_def, Except.map])
  exact h.1 1 5 (by norm_num) (by
    intro l hl
    rcases List.mem_cons.mp hl with h' | h'
    · norm_num [h']
    · rcases List.mem_cons.mp h' with h'' | h''
      · norm_num [h'']
      · simp at h'')

/-- Counterexample for C7 as stated: with every candidate failing simulation
construction, `eval` fails in the selection step with `ValueError` (from
`min(optimal_lengths)` on the empty list) — which is NOT one of Python's
index/lookup error kinds (`IndexError`/`KeyError`, the subclasses of
`LookupError`). -/
theorem eval_all_failed_not_lookup_error :
    eval ⟨3, -70, 1, 200, 200⟩ [("sine", none), ("linear", none), ("parabolic", none)] =
      Except.error PyErr.valueError
    ∧ isLookupError PyErr.valueError = false :=
  ⟨rfl, rfl⟩

/-- Claim C7 (amended): for every sweep in which all candidates fail
simulation construction, `eval` does not return a selected geometry and does
not raise a distinct descriptive error kind: the failure propagates from the
selection step as a `ValueError` (raised by `min()` over the empty
optimal-length list), not as an index/lookup error. -/
theorem eval_all_failed_valueError (di : RoutingTaperDesignIntent)
    (cands : List (String × Option (List Sample)))
    (hall : ∀ c ∈ cands, c.2 = none) :
    eval di cands = Except.error PyErr.valueError := by
  have hrc := runCandidates_all_none di.narrow_waveguide_routing_loss_per_cm
    di.stop_length (cands.map Prod.snd)
    (by
      intro o ho
      obtain ⟨c, hc, rfl⟩ := List.mem_map.mp ho
      exact hall c hc)
  unfold eval
  rw [hrc]
  rfl

/-- Witness for the amended C7 at a concrete all-failed sweep. -/
theorem eval_all_failed_valueError_witness :
    eval ⟨3, -70, 1, 200, 200⟩ [("sine", none), ("linear", none)] =
      Except.error PyErr.valueError :=
  eval_all_failed_valueError ⟨3, -70, 1, 200, 200⟩ [("sine", none), ("linear", none)]
    (by
      intro c hc
      rcases List.mem_cons.mp hc with h' | h'
      · rw [h']
      · rcases List.mem_cons.mp h' with h'' | h''
        · rw [h'']
        · simp at h'')

/-- Failing input for C4: four width-type candidates of which the first
(width type "sine") raises during simulation construction; the three
survivors produce optimal lengths `[5, 10, 10]` um and reflections
`[-80, -60, -60]` dB, so the winner is the first SURVIVOR (original
candidate "linear"). -/
def c4Candidates : List (String × Option (List Sample)) :=
  [("sine", none),
   ("linear", some [⟨5 / 1000000, 0, -80⟩]),
   ("parabolic", some [⟨10 / 1000000, 0, -60⟩]),
   ("straight", some [⟨10 / 1000000, 0, -60⟩])]

/-- Claim C4 (code bug): with the C4 failing input, `eval` logs exactly one
error and computes the optimal length, the sweep table and the result lists
over the 3 surviving candidates only — but it builds the selected geometry
with `width_type=list(typing.get_args(WidthTypes))[ind1]`, indexing the FULL
width-type list with the index into the filtered per-success lists, so the
returned component carries width type "sine": the width type of the candidate
that FAILED to simulate, not the winning survivor's "linear".  This
contradicts the claim (and the spec's partial-failure property) that the
result is computed only over the candidates that simulated successfully. -/
theorem eval_partial_failure_width_type_misaligned :
    ∃ out, eval ⟨3, -70, 1, 200, 200⟩ c4Candidates = Except.ok out
      ∧ out.errorsLogged = 1
      ∧ out.optimalLengths = [5, 10, 10]
      ∧ out.selectedIdx = 0
      ∧ out.component = ⟨"sine", 5⟩
      ∧ ("sine", (none : Option (List Sample))) ∈ c4Candidates ∧
        ∀ sw, ("sine", some sw) ∉ c4Candidates := by
  refine ⟨⟨[5, 10, 10], [0, 0, 0], [-80, -60, -60], 0, 0, 0, ⟨"sine", 5⟩,
    [⟨5 / 1000000, 0, -80⟩], 1, 0⟩, ?_, rfl, rfl, rfl, rfl, ?_, ?_⟩
  · norm_num [c4Candidates, eval, runCandidates, processCandidate,
      findCrossingSample, pyMin, pyIndex, pyGet, um, cm, min_def, Except.map]
  · simp [c4Candidates]
  · intro sw
    simp [c4Candidates]

theorem um_pos : (0 : ℚ) < um := by norm_num [um]

theorem processCandidate_range (rate startL stopL : ℚ) (samples : List Sample)
    (res : CandidateResult) (w : ℕ)
    (hr : ∀ s ∈ samples, startL * um ≤ s.length ∧ s.length ≤ stopL * um)
    (hl : ∀ last, samples.getLast? = some last → last.length = stopL * um)
    (hss : startL ≤ stopL)
    (h : processCandidate rate stopL samples = Except.ok (res, w)) :
    (startL ≤ res.optimalLength ∧ res.optimalLength ≤ stopL)
    ∧ ∃ (k : ℕ) (s : Sample), samples[k]? = some s
        ∧ s.length / um = res.optimalLength
        ∧ s.s21dB = res.transmission ∧ s.s11dB = res.reflection := by
  unfold processCandidate at h
  match hfc : findCrossingSample rate samples with
  | some ks =>
    rw [hfc] at h
    dsimp only [] at h
    injection h with h'
    have hres : (⟨ks.2.length / um, ks.2.s21dB, ks.2.s11dB⟩ : CandidateResult) = res := by
      have := congrArg Prod.fst h'
      simpa using this
    subst hres
    obtain ⟨hget, hpred⟩ := findCrossingSample_get rate samples ks.1 ks.2
      (by rw [hfc])
    obtain ⟨hlo, hhi⟩ := hr ks.2 (List.getElem?_mem hget)
    refine ⟨⟨(le_div_iff₀ um_pos).mpr hlo, (div_le_iff₀ um_pos).mpr hhi⟩,
      ks.1, ks.2, hget, rfl, rfl, rfl⟩
  | none =>
    rw [hfc] at h
    match hlast : samples.getLast? with
    | some last =>
      rw [hlast] at h
      dsimp only [] at h
      injection h with h'
      have hres : (⟨stopL, last.s21dB, last.s11dB⟩ : CandidateResult) = res := by
        have := congrArg Prod.fst h'
        simpa using this
      subst hres
      have hlen : last.length = stopL * um := hl last hlast
      refine ⟨⟨hss, le_refl _⟩, samples.length - 1, last, ?_, ?_, rfl, rfl⟩
      · rw [← List.getLast?_eq_getElem? samples]
        exact hlast
      · rw [hlen]
        exact mul_div_cancel_right₀ stopL (by norm_num [um])
    | none =>
      rw [hlast] at h
      exact Except.noConfusion h

/-- Claim C5: invariant of every completed `eval` — provided the simulation
adapter returns sweep tables whose sample lengths lie within the declared
`[start_length * um, stop_length * um]` range with the last sample at
`stop_length * um` (the `get_length_sweep(start, stop, num_pts)` contract),
the selected candidate's reported optimal length (the built component's
length, in um) lies within `[start_length, stop_length]`, and the winner's
recorded transmission and reflection come from the same length index of the
winner's sweep table as the reported optimal length. -/
theorem eval_winner_invariant (di : RoutingTaperDesignIntent)
    (cands : List (String × Option (List Sample))) (out : EvalOutput)
    (hrange : ∀ sw ∈ cands.filterMap Prod.snd, ∀ s ∈ sw,
      di.start_length * um ≤ s.length ∧ s.length ≤ di.stop_length * um)
    (hlast : ∀ sw ∈ cands.filterMap Prod.snd, ∀ last, sw.getLast? = some last →
      last.length = di.stop_length * um)
    (hss : di.start_length ≤ di.stop_length)
    (h : eval di cands = Except.ok out) :
    (di.start_length ≤ out.component.length ∧ out.component.length ≤ di.stop_length)
    ∧ ∃ (k : ℕ) (s : Sample), out.lengthSweep[k]? = some s
        ∧ s.length / um = out.component.length
        ∧ out.transmissionCoefficients[out.selectedIdx]? = some s.s21dB
        ∧ out.reflectionCoefficients[out.selectedIdx]? = some s.s11dB := by
  obtain ⟨rs, m1, m2, takeInd1, hrc, hopt, htr, hrefl, hm1, hi1, hm2, hi2, htake,
    hsel, hg1, hg2, hg3⟩ := eval_ok_elim di cands out h
  have hsweep := (pyGet_ok _ _ _).mp hg3
  have hlen := (pyGet_ok _ _ _).mp hg1
  rw [List.getElem?_map] at hsweep
  obtain ⟨pr, hpr, hpr2⟩ := Option.map_eq_some'.mp hsweep
  rw [hopt, List.getElem?_map, hpr] at hlen
  have hlen' : pr.1.optimalLength = out.component.length := by
    simpa using hlen
  have hmem : pr ∈ rs := List.getElem?_mem hpr
  obtain ⟨w0, hpc⟩ := (runCandidates_ok di.narrow_waveguide_routing_loss_per_cm
    di.stop_length (cands.map Prod.snd) rs out.errorsLogged out.warningsLogged hrc).2
    pr hmem
  have hswmem : pr.2 ∈ cands.filterMap Prod.snd := by
    rw [← rs_snd_eq_filterMap di.narrow_waveguide_routing_loss_per_cm di.stop_length
      cands rs out.errorsLogged out.warningsLogged hrc]
    exact List.mem_map_of_mem _ hmem
  obtain ⟨⟨hlo, hhi⟩, k, s, hks, hdiv, htr', hrefl'⟩ :=
    processCandidate_range di.narrow_waveguide_routing_loss_per_cm di.start_length
      di.stop_length pr.2 pr.1 w0 (hrange pr.2 hswmem) (hlast pr.2 hswmem) hss hpc
  refine ⟨⟨hlen' ▸ hlo, hlen' ▸ hhi⟩, k, s, ?_, ?_, ?_, ?_⟩
  · rw [← hpr2]
    exact hks
  · rw [hdiv, hlen']
  · rw [htr, List.getElem?_map, hpr]
    simp [htr']
  · rw [hrefl, List.getElem?_map, hpr]
    simp [hrefl']

/-- Single-candidate sweep for the C5 witness: one sample at the configured
maximum length `200 um`, inside the declared sweep range `[1, 200] um`. -/
def c5Sweep : List Sample := [⟨200 / 1000000, 0, -80⟩]

/-- Candidate list for the C5 witness. -/
def c5Cands : List (String × Option (List Sample)) := [("sine", some c5Sweep)]

/-- The `eval` output for the C5 witness. -/
def outC5 : EvalOutput := ⟨[200], [0], [-80], 0, 0, 0, ⟨"sine", 200⟩, c5Sweep, 0, 0⟩

/-- Witness for C5 at a concrete single-candidate sweep. -/
theorem eval_winner_invariant_witness :
    ((⟨3, -70, 1, 200, 200⟩ : RoutingTaperDesignIntent).start_length ≤
        outC5.component.length
      ∧ outC5.component.length ≤
        (⟨3, -70, 1, 200, 200⟩ : RoutingTaperDesignIntent).stop_length)
    ∧ ∃ (k : ℕ) (s : Sample), outC5.lengthSweep[k]? = some s
        ∧ s.length / um = outC5.component.length
        ∧ outC5.transmissionCoefficients[outC5.selectedIdx]? = some s.s21dB
        ∧ outC5.reflectionCoefficients[outC5.selectedIdx]? = some s.s11dB :=
  eval_winner_invariant ⟨3, -70, 1, 200, 200⟩ c5Cands outC5
    (by
      intro sw hsw s hs
      simp only [c5Cands, List.filterMap_cons, List.filterMap_nil] at hsw
      rcases List.mem_cons.mp hsw with h' | h'
      · subst h'
        simp only [c5Sweep] at hs
        rcases List.mem_cons.mp hs with h'' | h''
        · subst h''
          constructor <;> norm_num [um]
        · simp at h''
      · simp at h')
    (by
      intro sw hsw last hlast
      simp only [c5Cands, List.filterMap_cons, List.filterMap_nil] at hsw
      rcases List.mem_cons.mp hsw with h' | h'
      · subst h'
        have h200 : some (⟨200 / 1000000, 0, -80⟩ : Sample) = some last := by
          simpa [c5Sweep] using hlast
        injection h200 with h200'
        rw [← h200']
        norm_num [um]
      · simp at h')
    (by norm_num)
    (by
      norm_num [c5Cands, c5Sweep, outC5, eval, runCandidates, processCandidate,
        findCrossingSample, pyMin, pyIndex, pyGet, um, cm, min_def, Except.map])

/-- The mutable state of a `RoutingTaperDesignRecipe` instance that `eval`
touches or could touch: the configuration (design intent and the serialized
simulation / convergence settings, opaque to `eval`) and the result fields
`last_hash`, `component` and `length_sweep` written by `eval` lines 265 and
371-372. -/
structure RecipeState where
  designIntent : RoutingTaperDesignIntent
  simulationSetup : String
  convergenceSetup : String
  lastHash : Option ℕ
  component : Option Component
  lengthSweep : Option (List Sample)
  deriving DecidableEq, Repr

/-- The full `eval` method as a state transformer: line 265 stores
`self.last_hash = hash(self)` (the hash function is abstract), the sweep and
selection run, and on success lines 371-372 store the optimal component and
its length sweep.  The second component reports the exception propagating out
of `eval`, if any (the state keeps the partial mutation made before the
raise, as in Python). -/
def evalRecipe (hashFn : RecipeState → ℕ)
    (cands : List (String × Option (List Sample))) (s : RecipeState) :
    RecipeState × Option PyErr :=
  let s1 := { s with lastHash := some (hashFn s) }
  match eval s1.designIntent cands with
  | Except.error e => (s1, some e)
  | Except.ok out =>
    ({ s1 with component := some out.component, lengthSweep := some out.lengthSweep },
      none)

/-- Claim C8: every invocation of `eval` leaves the design intent, the
simulation settings and the convergence settings unchanged — whether it
completes or raises — and only the result fields (`last_hash`, `component`,
`length_sweep`) are ever written. -/
theorem evalRecipe_preserves_configuration (hashFn : RecipeState → ℕ)
    (cands : List (String × Option (List Sample))) (s : RecipeState) :
    (evalRecipe hashFn cands s).1.designIntent = s.designIntent
    ∧ (evalRecipe hashFn cands s).1.simulationSetup = s.simulationSetup
    ∧ (evalRecipe hashFn cands s).1.convergenceSetup = s.convergenceSetup := by
  rcases h : eval s.designIntent cands with e | out <;>
    simp [evalRecipe, h]

/-- Python `int.bit_length()` on a non-negative integer: `0` for `0`,
`floor(log2 n) + 1` otherwise. -/
def bit_length (n : ℕ) : ℕ := if n = 0 then 0 else Nat.log2 n + 1

/-- Python `n.to_bytes(count, byteorder="big")` for `n` that fits in `count`
bytes: the big-endian byte list of length `count`. -/
def toBytesBig (n : ℕ) (count : ℕ) : List ℕ :=
  (List.range count).map (fun i => n / 256 ^ (count - 1 - i) % 256)

/-- UTF-8 encoding of a string, as a byte list (Python `str.encode("utf-8")`). -/
def utf8Bytes (s : String) : List ℕ :=
  s.toUTF8.toList.map (fun b => b.toNat)

/-- The configuration that `RoutingTaperDesignRecipe.__hash__` feeds to
`hashlib.sha1`: the superclass configuration digest (a non-negative integer
covering geometry cell, material map and layer stack) and the canonical JSON
serializations (`model_dump_json`) of the simulation settings, convergence
settings and design intent. -/
structure RecipeConfig where
  superHash : ℕ
  simulationSetupJson : String
  convergenceSetupJson : String
  designIntentJson : String
  deriving DecidableEq, Repr

/-- The exact byte stream `__hash__` lines 233-238 feeds into the SHA-1
state, in update order: `int_hash.to_bytes(int_hash.bit_length() + 7 // 8,
byteorder="big")` — note that Python parses this count as
`bit_length() + (7 // 8) = bit_length()`, which is always enough bytes —
followed by the three UTF-8 encoded JSON strings. -/
def recipeHashInput (c : RecipeConfig) : List ℕ :=
  toBytesBig c.superHash (bit_length c.superHash + 7 / 8)
    ++ utf8Bytes c.simulationSetupJson
    ++ utf8Bytes c.convergenceSetupJson
    ++ utf8Bytes c.designIntentJson

/-- `RoutingTaperDesignRecipe.__hash__`: the digest of the byte stream built
from the configuration.  `sha1` abstracts `hashlib.sha1(...).digest()`
followed by `int.from_bytes(..., "big")` — a fixed deterministic function of
the byte stream, supplied by the standard library. -/
def recipeHash (sha1 : List ℕ → ℕ) (c : RecipeConfig) : ℕ :=
  sha1 (recipeHashInput c)

/-- Claim C6: the fingerprint is deterministic — for every digest function
and every pair of recipe configurations agreeing on the superclass digest,
the simulation settings, the convergence settings and the design intent,
`__hash__` produces identical digests (and, being a pure function of the
configuration, the same digest on every repeated call). -/
theorem recipeHash_deterministic (sha1 : List ℕ → ℕ) (c1 c2 : RecipeConfig)
    (h1 : c1.superHash = c2.superHash)
    (h2 : c1.simulationSetupJson = c2.simulationSetupJson)
    (h3 : c1.convergenceSetupJson = c2.convergenceSetupJson)
    (h4 : c1.designIntentJson = c2.designIntentJson) :
    recipeHash sha1 c1 = recipeHash sha1 c2 := by
  obtain ⟨a1, b1, d1, e1⟩ := c1
  obtain ⟨a2, b2, d2, e2⟩ := c2
  simp only at h1 h2 h3 h4
  subst h1; subst h2; subst h3; subst h4
  rfl

/-- Witness for C6: two structurally equal configurations hash identically
under a concrete digest function. -/
theorem recipeHash_deterministic_witness :
    recipeHash (fun bytes => bytes.length) ⟨5, "sim", "conv", "intent"⟩ =
      recipeHash (fun bytes => bytes.length) ⟨5, "sim", "conv", "intent"⟩ :=
  recipeHash_deterministic (fun bytes => bytes.length)
    ⟨5, "sim", "conv", "intent"⟩ ⟨5, "sim", "conv", "intent"⟩ rfl rfl rfl rfl

/-- One entry of `layerstack.to_dict().items()` as consumed by `to_lbr`
(`gplugins/lumerical/utils.py`): the layer name and the fields that drive the
control flow — `layer_type`, `background_doping_concentration` and
`background_doping_ion`.  `none` models a missing/`None` value; Python
truthiness of the two doping fields is modelled by `truthyQ` / `truthyS`.
The remaining geometric and material attributes only produce XML attribute
strings and never affect control flow, so they are elided. -/
structure LayerInfo where
  name : String
  layer_type : String
  background_doping_concentration : Option ℚ
  background_doping_ion : Option String
  deriving DecidableEq, Repr

/-- Python truthiness of a possibly missing numeric field
(`layer_info.get(..., False)`): `None` and `0` are falsy. -/
def truthyQ : Option ℚ → Bool
  | none => false
  | some q => decide (q ≠ 0)

/-- Python truthiness of a possibly missing string field: `None` and the
empty string are falsy. -/
def truthyS : Option String → Bool
  | none => false
  | some s => decide (s ≠ "")

/-- `to_lbr` lines 46-56: map the layer type to the Layer Builder process,
defaulting to "Grow" (with a warning) for unsupported types. -/
def processOf (layer_type : String) : String :=
  if layer_type = "grow" then "Grow"
  else if layer_type = "background" then "Background"
  else if layer_type = "doping" then "Implant"
  else "Grow"

/-- One warning is logged for a layer whose type is not
grow/background/doping (`to_lbr` lines 52-56). -/
def typeWarningOf (l : LayerInfo) : ℕ :=
  if l.layer_type = "grow" ∨ l.layer_type = "background" ∨ l.layer_type = "doping"
  then 0 else 1

/-- The `<layer>` element created for Grow/Background processes
(`to_lbr` lines 58-90), represented by the layer's name. -/
def opticalLayerOf (l : LayerInfo) : List String :=
  if processOf l.layer_type = "Grow" ∨ processOf l.layer_type = "Background"
  then [l.name] else []

/-- A `<doping_layers>` entry (`to_lbr` lines 103-136): name (with the
`_doping` suffix), the validated dopant, and the process. -/
structure DopingEntry where
  name : String
  dopant : String
  process : String
  deriving DecidableEq, Repr

/-- The process file content written by `to_lbr` at lines 142-152, after the
whole layer loop has run: the optical layer elements, the doping layer
entries, and the number of warnings logged. -/
structure LbrDocument where
  opticalLayers : List String
  dopingLayers : List DopingEntry
  warningsLogged : ℕ
  deriving DecidableEq, Repr

/-- The layer loop of `to_lbr` (lines 44-136).  A doping entry is created for
a layer exactly when its process is Implant or Background and both
`background_doping_concentration` and `background_doping_ion` are truthy; if
such a layer's ion is neither "n" nor "p", a `ValueError` is raised on the
spot and the loop (and the function) aborts. -/
def processLayers : List LayerInfo → Except PyErr LbrDocument
  | [] => Except.ok ⟨[], [], 0⟩
  | l :: rest =>
    if (processOf l.layer_type = "Implant" ∨ processOf l.layer_type = "Background")
        ∧ truthyQ l.background_doping_concentration = true
        ∧ truthyS l.background_doping_ion = true then
      if l.background_doping_ion = some "n" ∨ l.background_doping_ion = some "p" then
        match processLayers rest with
        | Except.error e => Except.error e
        | Except.ok doc =>
          Except.ok ⟨opticalLayerOf l ++ doc.opticalLayers,
            ⟨l.name ++ "_doping", l.background_doping_ion.getD "",
              processOf l.layer_type⟩ :: doc.dopingLayers,
            typeWarningOf l + doc.warningsLogged⟩
      else Except.error PyErr.valueError
    else
      match processLayers rest with
      | Except.error e => Except.error e
      | Except.ok doc =>
        Except.ok ⟨opticalLayerOf l ++ doc.opticalLayers, doc.dopingLayers,
          typeWarningOf l + doc.warningsLogged⟩

/-- `to_lbr`: run the layer loop; on success the returned document is what
gets written to `process.lbr` (the write happens only after the loop, so a
`ValueError` raised in the loop means nothing is written). -/
def to_lbr (layers : List LayerInfo) : Except PyErr LbrDocument :=
  processLayers layers

/-- A layer that triggers the dopant `ValueError`: Implant or Background
process, truthy doping concentration and ion, and an ion that is neither "n"
nor "p". -/
def invalidDopant (l : LayerInfo) : Bool :=
  decide ((processOf l.layer_type = "Implant" ∨ processOf l.layer_type = "Background")
    ∧ truthyQ l.background_doping_concentration = true
    ∧ truthyS l.background_doping_ion = true
    ∧ ¬(l.background_doping_ion = some "n" ∨ l.background_doping_ion = some "p"))

/-- Claim C9: `to_lbr` raises `ValueError` — before writing the process
file — if and only if some layer with a truthy background doping
concentration and ion, under a Background or Implant process, has an ion
other than "p" / "n"; layers with ion "p" or "n" never trigger it. -/
theorem to_lbr_valueError_iff_invalid_dopant (layers : List LayerInfo) :
    to_lbr layers = Except.error PyErr.valueError
      ↔ ∃ l ∈ layers, invalidDopant l = true := by
  unfold to_lbr
  induction layers with
  | nil => simp [processLayers]
  | cons l rest ih =>
    simp only [processLayers]
    by_cases hc : (processOf l.layer_type = "Implant"
          ∨ processOf l.layer_type = "Background")
        ∧ truthyQ l.background_doping_concentration = true
        ∧ truthyS l.background_doping_ion = true
    · rw [if_pos hc]
      by_cases hion : l.background_doping_ion = some "n"
          ∨ l.background_doping_ion = some "p"
      · rw [if_pos hion]
        have hinv : invalidDopant l = false := by
          simp only [invalidDopant, decide_eq_false_iff_not]
          intro ⟨_, _, _, hno⟩
          exact hno hion
        constructor
        · intro h
          match hrec : processLayers rest with
          | Except.error e =>
            rw [hrec] at h
            injection h with h'
            obtain ⟨l', hl', hl'inv⟩ := ih.mp (by rw [hrec, h'])
            exact ⟨l', List.mem_cons_of_mem _ hl', hl'inv⟩
          | Except.ok doc =>
            rw [hrec] at h
            exact Except.noConfusion h
        · intro ⟨l', hl', hl'inv⟩
          rcases List.mem_cons.mp hl' with heq | hmem
          · subst heq
            rw [hinv] at hl'inv
            exact Bool.noConfusion hl'inv
          · have := ih.mpr ⟨l', hmem, hl'inv⟩
            rw [this]
      · rw [if_neg hion]
        constructor
        · intro _
          refine ⟨l, List.mem_cons_self _ _, ?_⟩
          simp only [invalidDopant, decide_eq_true_eq]
          exact ⟨hc.1, hc.2.1, hc.2.2, hion⟩
        · intro _
          rfl
    · rw [if_neg hc]
      have hinv : invalidDopant l = false := by
        simp only [invalidDopant, decide_eq_false_iff_not]
        intro ⟨h1, h2, h3, _⟩
        exact hc ⟨h1, h2, h3⟩
      constructor
      · intro h
        match hrec : processLayers rest with
        | Except.error e =>
          rw [hrec] at h
          injection h with h'
          obtain ⟨l', hl', hl'inv⟩ := ih.mp (by rw [hrec, h'])
          exact ⟨l', List.mem_cons_of_mem _ hl', hl'inv⟩
        | Except.ok doc =>
          rw [hrec] at h
          exact Except.noConfusion h
      · intro ⟨l', hl', hl'inv⟩
        rcases List.mem_cons.mp hl' with heq | hmem
        · subst heq
          rw [hinv] at hl'inv
          exact Bool.noConfusion hl'inv
        · have := ih.mpr ⟨l', hmem, hl'inv⟩
          rw [this]

/-- Witness for C9: a doping-process layer with ion "Boron" (the dopant from
the layer stack in the source's commented example run) makes `to_lbr` raise
`ValueError`, and a layer with ion "p" does not. -/
theorem to_lbr_valueError_iff_invalid_dopant_witness :
    to_lbr [⟨"core", "doping", some 100000000000000, some "Boron"⟩] =
      Except.error PyErr.valueError
    ∧ ¬(to_lbr [⟨"core", "doping", some 100000000000000, some "p"⟩] =
      Except.error PyErr.valueError) := by
  constructor
  · exact (to_lbr_valueError_iff_invalid_dopant
      [⟨"core", "doping", some 100000000000000, some "Boron"⟩]).mpr
      ⟨⟨"core", "doping", some 100000000000000, some "Boron"⟩, by simp,
        by
          simp only [invalidDopant, processOf, truthyQ, truthyS]
          decide⟩
  · intro h
    obtain ⟨l', hl', hinv⟩ := (to_lbr_valueError_iff_invalid_dopant
      [⟨"core", "doping", some 100000000000000, some "p"⟩]).mp h
    rcases List.mem_cons.mp hl' with heq | hmem
    · subst heq
      simp only [invalidDopant, decide_eq_true_eq] at hinv
      exact hinv.2.2.2 (Or.inr trivial)
    · simp at hmem
